import Mathlib

/-!
# litefs-duckdb-example: the HTTP handlers and the startup sequence

A shallow embedding of `cmd/litefs-example/main.go`.

* The `persons` table is a list of `Person` rows (insertion order); the
  database additionally keeps the list of statements issued against it, so
  that "no statement was issued" can be stated.
* Every `err != nil` branch of the source is driven by a field of `Faults`
  (or `StartupFaults`): the environment decides whether a statement fails
  and with which error text.
* `http.ResponseWriter` is a record of the header map, the status line once
  it has been written, the header as it was sent, the bytes written, and the
  `WriteHeader` calls that arrived too late.
* Logging to standard error by the handlers (`log.Printf`) is outside the
  modelled state.
-/

namespace LitefsExample

/-! ## Data model -/

/-- The Go struct `Person`. -/
structure Person where
  ID : Int
  Name : String
  Phone : String
  Company : String
deriving DecidableEq, Repr

/-- The Go struct `TemplateData`. -/
structure TemplateData where
  Region : String
  Persons : List Person
deriving DecidableEq, Repr

/-! ## net/http: headers, response writer, helpers -/

/-- A header map, as an association list keyed by canonical header names. -/
abbrev Header := List (String × String)

/-- The bytes allowed in a header field name (RFC 7230 token characters). -/
def validHeaderFieldByte (c : Char) : Bool :=
  c.isAlphanum ||
    [33, 35, 36, 37, 38, 39, 42, 43, 45, 46, 94, 95, 96, 124, 126].contains c.toNat

/-- The capitalisation pass of `textproto.CanonicalMIMEHeaderKey`: the first
letter and every letter after a hyphen is upper case, the others lower case. -/
def canonicalLoop : Bool → List Char → List Char
  | _, [] => []
  | upper, c :: cs =>
    let c1 := if upper then c.toUpper else c.toLower
    c1 :: canonicalLoop (c1 == '-') cs

/-- The function `textproto.CanonicalMIMEHeaderKey`: names that hold a byte
which is not a token character are returned unchanged. -/
def canonicalMIMEHeaderKey (s : String) : String :=
  if s.toList.all validHeaderFieldByte then String.mk (canonicalLoop true s.toList) else s

/-- The method `Header.Get`: the first value stored under the canonical key,
the empty string when there is none. -/
def Header.Get (h : Header) (key : String) : String :=
  match h.find? (fun kv => kv.1 == canonicalMIMEHeaderKey key) with
  | some kv => kv.2
  | none => ""

/-- The method `Header.Del`. -/
def Header.Del (h : Header) (key : String) : Header :=
  h.filter (fun kv => kv.1 != canonicalMIMEHeaderKey key)

/-- The method `Header.Set`: replaces what is stored under the canonical key. -/
def Header.Set (h : Header) (key value : String) : Header :=
  Header.Del h key ++ [(canonicalMIMEHeaderKey key, value)]

/-- Whether the map has an entry under exactly this key (`_, ok := h[key]`). -/
def Header.has (h : Header) (key : String) : Bool :=
  h.any (fun kv => kv.1 == key)

def StatusOK : Nat := 200
def StatusFound : Nat := 302
def StatusMethodNotAllowed : Nat := 405
def StatusInternalServerError : Nat := 500

/-- The state of an `http.ResponseWriter`.
`status` is `none` until the status line is written; `sent` is the header map
as it stood at that moment (later changes to `header` do not reach the
client); `superfluous` lists the codes of `WriteHeader` calls made after the
status line was written, which net/http ignores. -/
structure ResponseWriter where
  header : Header
  status : Option Nat
  sent : Header
  body : String
  superfluous : List Nat
deriving DecidableEq, Repr

/-- The response writer a handler is called with. -/
def ResponseWriter.fresh : ResponseWriter :=
  { header := [], status := none, sent := [], body := "", superfluous := [] }

/-- The method `WriteHeader`: only the first call takes effect. -/
def ResponseWriter.WriteHeader (w : ResponseWriter) (code : Nat) : ResponseWriter :=
  match w.status with
  | some _ => { w with superfluous := w.superfluous ++ [code] }
  | none => { w with status := some code, sent := w.header }

/-- The method `Write`: the first write sends the status line with
`StatusOK` when `WriteHeader` has not been called. -/
def ResponseWriter.Write (w : ResponseWriter) (s : String) : ResponseWriter :=
  let w1 := match w.status with
    | some _ => w
    | none => w.WriteHeader StatusOK
  { w1 with body := w1.body ++ s }

/-- What the server does when the handler returns: a response whose status
line was never written is sent with `StatusOK`. -/
def ResponseWriter.finish (w : ResponseWriter) : ResponseWriter :=
  match w.status with
  | some _ => w
  | none => w.WriteHeader StatusOK

/-- The header map `http.Error` leaves behind on a writer whose map was empty. -/
def errorHeader : Header :=
  [("Content-Type", "text/plain; charset=utf-8"), ("X-Content-Type-Options", "nosniff")]

/-- The function `http.Error`. -/
def httpError (w : ResponseWriter) (error : String) (code : Nat) : ResponseWriter :=
  let h := Header.Set
    (Header.Set (Header.Del w.header "Content-Length") "Content-Type" "text/plain; charset=utf-8")
    "X-Content-Type-Options" "nosniff"
  (ResponseWriter.WriteHeader { w with header := h } code).Write (error ++ "\n")

/-- The parts of an `http.Request` the handlers read. `query` is the parsed
query string (`r.URL.Query()`), in order of appearance. -/
structure Request where
  Method : String
  path : String
  query : List (String × String)
  header : Header
deriving DecidableEq, Repr

/-- The call `r.URL.Query().Get(key)`: the first value of the parameter, the
empty string when the parameter is absent. -/
def Request.queryGet (r : Request) (key : String) : String :=
  match r.query.find? (fun kv => kv.1 == key) with
  | some kv => kv.2
  | none => ""

/-- The method `r.Referer()`. -/
def Request.Referer (r : Request) : String :=
  Header.Get r.header "Referer"

/-! ## The database -/

/-- The statements the handlers issue. -/
inductive Stmt where
  | selectRecent
  | selectNextID
  | insert (id : Int) (name phone company : String)
deriving DecidableEq, Repr

/-- The database: the rows of `db.persons` and the statements issued so far. -/
structure DB where
  persons : List Person
  issued : List Stmt
deriving DecidableEq, Repr

/-- The errors the environment injects into one request; `none` means the
operation succeeds. -/
structure Faults where
  /-- The error of `db.Query`. -/
  query : Option String
  /-- The error of `rows.Scan` on the row with this index. -/
  scan : Nat → Option String
  /-- The error of `rows.Close`. -/
  close : Option String
  /-- The error of `QueryRowContext(...).Scan`. -/
  nextID : Option String
  /-- The text of the engine's out-of-range error for 64-bit addition. -/
  overflow : String
  /-- The error of `db.ExecContext`. -/
  exec : Option String

/-- The order of `ORDER BY id DESC`. -/
def idDesc (a b : Person) : Prop := b.ID ≤ a.ID

instance : DecidableRel idDesc := fun a b => inferInstanceAs (Decidable (b.ID ≤ a.ID))

instance : IsTotal Person idDesc := ⟨fun a b => Int.le_total b.ID a.ID⟩

instance : IsTrans Person idDesc := ⟨fun _ _ _ hab hbc => Int.le_trans hbc hab⟩

/-- The rows of `SELECT id, name, phone, company FROM db.persons ORDER BY id
DESC LIMIT 10`. Rows with equal ids are kept in table order. -/
def selectRecent (persons : List Person) : List Person :=
  (persons.insertionSort idDesc).take 10

/-- The SQL aggregate `MAX(id)`: `NULL` (here `none`) on the empty table. -/
def maxID : List Person → Option Int
  | [] => none
  | p :: ps =>
    match maxID ps with
    | none => some p.ID
    | some m => some (max p.ID m)

/-- The value of `COALESCE(MAX(id), 0) + 1`. -/
def nextIDValue (persons : List Person) : Int :=
  (maxID persons).getD 0 + 1

/-- The largest 64-bit signed integer. -/
def maxInt64 : Int := 9223372036854775807

/-- The call `db.Query(...)` of `handleIndex`. -/
def dbQuery (f : Faults) (db : DB) : Except String (List Person) × DB :=
  let db1 := { db with issued := db.issued ++ [Stmt.selectRecent] }
  match f.query with
  | some err => (.error err, db1)
  | none => (.ok (selectRecent db.persons), db1)

/-- The loop `for rows.Next() { rows.Scan(...); append }` of `handleIndex`,
from the row with index `i` on. -/
def scanRows (scan : Nat → Option String) : Nat → List Person → List Person →
    Except String (List Person)
  | _, [], persons => .ok persons
  | i, row :: rest, persons =>
    match scan i with
    | some err => .error err
    | none => scanRows scan (i + 1) rest (persons ++ [row])

/-- The call `db.QueryRowContext(...).Scan(&nextID)` of `handleGenerate`. The
sum is computed in 64 bits by the engine, which fails instead of wrapping. -/
def queryNextID (f : Faults) (db : DB) : Except String Int × DB :=
  let db1 := { db with issued := db.issued ++ [Stmt.selectNextID] }
  match f.nextID with
  | some err => (.error err, db1)
  | none =>
    if maxInt64 < nextIDValue db.persons then (.error f.overflow, db1)
    else (.ok (nextIDValue db.persons), db1)

/-- The call `db.ExecContext(..., INSERT INTO db.persons ...)` of
`handleGenerate`: a failed insert leaves the rows as they were. -/
def execInsert (f : Faults) (db : DB) (id : Int) (name phone company : String) :
    Option String × DB :=
  let db1 := { db with issued := db.issued ++ [Stmt.insert id name phone company] }
  match f.exec with
  | some err => (some err, db1)
  | none => (none, { db1 with persons := db1.persons ++ [⟨id, name, phone, company⟩] })

/-! ## net/url, path and the target of `http.Redirect`

Strings are handled as lists of characters. The Go functions work on bytes;
the tests they make (control bytes, ASCII letters and digits, punctuation)
only ever succeed on ASCII, so they read the same on characters. -/

/-- The part of `s` before the first `sep` (all of `s` when there is none). -/
def cutBefore (sep : Char) (s : List Char) : List Char :=
  s.takeWhile (fun c => c != sep)

/-- The part of `s` from the first `sep` on, `sep` included (empty when there
is none). -/
def cutFrom (sep : Char) (s : List Char) : List Char :=
  s.dropWhile (fun c => c != sep)

/-- The part of `s` after the first `sep` (empty when there is none). -/
def cutAfter (sep : Char) (s : List Char) : List Char :=
  (cutFrom sep s).drop 1

/-- The part of `s` up to and including the last `sep` (empty when there is
none). -/
def uptoLast (sep : Char) (s : List Char) : List Char :=
  (cutFrom sep s.reverse).reverse

/-- The part of `s` after the last `sep` (all of `s` when there is none). -/
def afterLast (sep : Char) (s : List Char) : List Char :=
  (cutBefore sep s.reverse).reverse

/-- The function `stringContainsCTLByte` of net/url. -/
def stringContainsCTLByte (s : List Char) : Bool :=
  s.any (fun c => c.toNat < 32 || c.toNat == 127)

/-- The function `ishex` of net/url. -/
def ishex (c : Char) : Bool :=
  c.isDigit || ('a' ≤ c && c ≤ 'f') || ('A' ≤ c && c ≤ 'F')

/-- Whether `unescape` of net/url succeeds on a path, fragment or userinfo:
every percent sign is followed by two hexadecimal digits. -/
def validEscapes : List Char → Bool
  | [] => true
  | c :: rest =>
    if c = '%' then
      match rest with
      | a :: b :: rest2 => ishex a && ishex b && validEscapes rest2
      | _ => false
    else validEscapes rest

/-- The characters a URL scheme is made of; the first one must be a letter. -/
def isSchemeChar (c : Char) : Bool :=
  c.isAlpha || c.isDigit || c == '+' || c == '-' || c == '.'

/-- The loop of `getScheme` of net/url; `seen` is the part already read.
The result is the scheme and the rest, `none` for the error "missing
protocol scheme". -/
def getSchemeFrom (rawURL : List Char) : List Char → List Char → Option (List Char × List Char)
  | _, [] => some ([], rawURL)
  | seen, c :: rest =>
    if c.isAlpha then getSchemeFrom rawURL (seen ++ [c]) rest
    else if c.isDigit || c == '+' || c == '-' || c == '.' then
      if seen.isEmpty then some ([], rawURL) else getSchemeFrom rawURL (seen ++ [c]) rest
    else if c == ':' then
      if seen.isEmpty then none else some (seen, rest)
    else some ([], rawURL)

/-- The function `getScheme` of net/url. -/
def getScheme (rawURL : List Char) : Option (List Char × List Char) :=
  getSchemeFrom rawURL [] rawURL

/-- The function `validUserinfo` of net/url. -/
def validUserinfo (s : List Char) : Bool :=
  s.all (fun c => c.isAlphanum || "-._:~!$&()*+,;=%@".toList.contains c || c.toNat == 39)

/-- Whether `parseAuthority` of net/url succeeds with an empty host. A host
part that is not empty gives an error or a host that is not empty, which
`http.Redirect` treats alike, so the two are not told apart. -/
def authorityHostEmpty (authority : List Char) : Bool :=
  if authority.contains '@' then
    (afterLast '@' authority).isEmpty &&
      (let userinfo := (uptoLast '@' authority).dropLast
       validUserinfo userinfo &&
        (if userinfo.contains ':' then
          validEscapes (cutBefore ':' userinfo) && validEscapes (cutAfter ':' userinfo)
        else validEscapes userinfo))
  else authority.isEmpty

/-- Whether `url.Parse(rawURL)` succeeds with an empty `Scheme` and an empty
`Host`, the test `http.Redirect` makes: the fragment is cut off, control
bytes are refused, the scheme is read, the query is cut off, a first path
segment with a colon is refused, an authority after a leading double slash is
parsed, and the escapes of path and fragment are checked. -/
def parsesAsRelative (rawURL : List Char) : Bool :=
  let u := cutBefore '#' rawURL
  let frag := cutAfter '#' rawURL
  if stringContainsCTLByte u then false
  else if u = ['*'] then frag.isEmpty || validEscapes frag
  else
    match getScheme u with
    | none => false
    | some (scheme, rest0) =>
      if !scheme.isEmpty then false
      else
        let rest := cutBefore '?' rest0
        if rest.head? != some '/' && (cutBefore '/' rest).contains ':' then false
        else if rest.take 2 = ['/', '/'] && rest.take 3 != ['/', '/', '/'] then
          authorityHostEmpty (cutBefore '/' (rest.drop 2)) &&
            validEscapes (cutFrom '/' (rest.drop 2)) && (frag.isEmpty || validEscapes frag)
        else validEscapes rest && (frag.isEmpty || validEscapes frag)

/-- The elements of a path between slashes. -/
def splitSlash : List Char → List (List Char)
  | [] => [[]]
  | c :: cs =>
    if c = '/' then [] :: splitSlash cs
    else
      match splitSlash cs with
      | e :: es => (c :: e) :: es
      | [] => [[c]]

/-- One element of `path.Clean`: empty and `.` elements are dropped, `..`
removes the element before it (at the root it is dropped, at the start of a
relative path it is kept), any other element is appended. -/
def cleanStep (rooted : Bool) (out : List (List Char)) (elem : List Char) : List (List Char) :=
  if elem = [] ∨ elem = ['.'] then out
  else if elem = ['.', '.'] then
    match out.getLast? with
    | some last =>
      if last ≠ ['.', '.'] then out.dropLast
      else if rooted then out else out ++ [elem]
    | none => if rooted then out else out ++ [elem]
  else out ++ [elem]

/-- The function `path.Clean`. -/
def pathClean (path : List Char) : List Char :=
  if path = [] then ['.']
  else
    let rooted := path.head? == some '/'
    let out := (splitSlash path).foldl (cleanStep rooted) []
    if rooted then '/' :: List.intercalate ['/'] out
    else if out = [] then ['.']
    else List.intercalate ['/'] out

/-- The UTF-8 bytes of a character. -/
def utf8Bytes (c : Char) : List Nat :=
  let n := c.toNat
  if n < 128 then [n]
  else if n < 2048 then [192 + n / 64, 128 + n % 64]
  else if n < 65536 then [224 + n / 4096, 128 + n / 64 % 64, 128 + n % 64]
  else [240 + n / 262144, 128 + n / 4096 % 64, 128 + n / 64 % 64, 128 + n % 64]

/-- One lower-case hexadecimal digit. -/
def hexDigit (n : Nat) : Char := (Nat.toDigits 16 n).headD '0'

/-- The function `hexEscapeNonASCII` of net/http: every byte from 128 on is
written as a percent sign and two hexadecimal digits. -/
def hexEscapeNonASCII (s : List Char) : List Char :=
  s.flatMap (fun c =>
    if c.toNat < 128 then [c]
    else (utf8Bytes c).flatMap (fun b => ['%', hexDigit (b / 16), hexDigit (b % 16)]))

/-- The target `http.Redirect` redirects to, for a request path and the
`url` argument: a `url` that parses as a relative reference is resolved
against the directory of the request path and cleaned, with a trailing slash
and the query kept; any other `url` is used as it is. -/
def redirectTarget (oldpath0 url : List Char) : List Char :=
  if parsesAsRelative url then
    let oldpath := if oldpath0 = [] then ['/'] else oldpath0
    let url1 := if url.head? != some '/' then uptoLast '/' oldpath ++ url else url
    let query := cutFrom '?' url1
    let url2 := cutBefore '?' url1
    let trailing := url2.getLast? == some '/'
    let url3 := pathClean url2
    let url4 := if trailing && url3.getLast? != some '/' then url3 ++ ['/'] else url3
    url4 ++ query
  else url

/-- The value `http.Redirect` stores in the `Location` header. -/
def redirectLocation (oldpath url : String) : String :=
  String.mk (hexEscapeNonASCII (redirectTarget oldpath.toList url.toList))

/-! ## The handlers -/

/-- What a request's handling depends on besides the request and the rows. -/
structure Env where
  /-- The value of `os.Getenv("FLY_REGION")`, empty when unset. -/
  flyRegion : String
  /-- The database errors injected into this request. -/
  faults : Faults
  /-- The value of `gofakeit.Name()`. -/
  fakeName : String
  /-- The value of `gofakeit.Phone()`. -/
  fakePhone : String
  /-- The value of `gofakeit.Company()`. -/
  fakeCompany : String
  /-- The execution of the embedded template `index.tmpl`, whose text is
  fixed at build time: the chunks it writes, in order, and the error it stops
  with, if any. -/
  tmplExec : TemplateData → List String × Option String
  /-- The HTML body `http.Redirect` writes for a GET request, from the target
  and the status code. -/
  redirectBody : String → Nat → String

/-- The function `http.Redirect`. -/
def httpRedirect (env : Env) (w : ResponseWriter) (r : Request) (url : String) (code : Nat) :
    ResponseWriter :=
  let hadCT := Header.has w.header "Content-Type"
  let h1 := Header.Set w.header "Location" (redirectLocation r.path url)
  let h2 := if !hadCT && (r.Method == "GET" || r.Method == "HEAD") then
      Header.Set h1 "Content-Type" "text/html; charset=utf-8"
    else h1
  let w1 := ResponseWriter.WriteHeader { w with header := h2 } code
  if !hadCT && r.Method == "GET" then
    w1.Write (env.redirectBody (String.mk (redirectTarget r.path.toList url.toList)) code ++ "\n")
  else w1

/-- The line `fmt.Fprintf(w, "- %s @ %s (%s)\n", ...)` for one record. -/
def personLine (p : Person) : String :=
  "- " ++ p.Name ++ " @ " ++ p.Company ++ " (" ++ p.Phone ++ ")\n"

/-- The `text/plain` branch of `handleIndex`. -/
def renderText (w : ResponseWriter) (tmplData : TemplateData) : ResponseWriter :=
  tmplData.Persons.foldl (fun w1 person => w1.Write (personLine person))
    (w.Write ("REGION: " ++ tmplData.Region ++ "\n\n"))

/-- The default branch of `handleIndex`: the template writes its chunks to
`w`; an execution error is then reported with `http.Error`. -/
def renderHTML (env : Env) (w : ResponseWriter) (tmplData : TemplateData) : ResponseWriter :=
  let w1 := (env.tmplExec tmplData).1.foldl (fun w1 chunk => w1.Write chunk) w
  match (env.tmplExec tmplData).2 with
  | some err => httpError w1 err StatusInternalServerError
  | none => w1

/-- Lines 119 to 145 of `handleIndex`: the query, the scan loop and
`rows.Close`, giving the collected records or the error reported. -/
def queryPersons (f : Faults) (db : DB) : Except String (List Person) × DB :=
  match dbQuery f db with
  | (.error err, db1) => (.error err, db1)
  | (.ok rows, db1) =>
    match scanRows f.scan 0 rows [] with
    | .error err => (.error err, db1)
    | .ok persons =>
      match f.close with
      | some err => (.error err, db1)
      | none => (.ok persons, db1)

/-- The function `handleIndex`. -/
def handleIndex (env : Env) (db : DB) (w : ResponseWriter) (r : Request) :
    ResponseWriter × DB :=
  let region := r.queryGet "region"
  if region ≠ "" ∧ region ≠ env.flyRegion then
    ({ w with header := Header.Set w.header "fly-replay" ("region=" ++ region) }, db)
  else
    match queryPersons env.faults db with
    | (.error err, db1) => (httpError w err StatusInternalServerError, db1)
    | (.ok persons, db1) =>
      let tmplData : TemplateData := { Region := env.flyRegion, Persons := persons }
      if Header.Get r.header "accept" = "text/plain" then (renderText w tmplData, db1)
      else (renderHTML env w tmplData, db1)

/-- The function `handleGenerate`. -/
def handleGenerate (env : Env) (db : DB) (w : ResponseWriter) (r : Request) :
    ResponseWriter × DB :=
  if r.Method ≠ "POST" then
    (httpError w "Method not allowed" StatusMethodNotAllowed, db)
  else
    match queryNextID env.faults db with
    | (.error err, db1) =>
      (httpError (w.Write ("ERROR: " ++ err ++ "\n\n")) "Failed to calculate next ID"
        StatusInternalServerError, db1)
    | (.ok nextID, db1) =>
      match execInsert env.faults db1 nextID env.fakeName env.fakePhone env.fakeCompany with
      | (some err, db2) =>
        (httpError (w.Write ("ERROR: " ++ err ++ "\n\n")) "Method not allowed"
          StatusMethodNotAllowed, db2)
      | (none, db2) => (httpRedirect env w r r.Referer StatusFound, db2)

/-- One request served by the process: which handler runs, with what
environment and request. -/
inductive Call where
  | index (env : Env) (r : Request)
  | generate (env : Env) (r : Request)

/-- The database after one request. -/
def step (db : DB) : Call → DB
  | .index env r => (handleIndex env db ResponseWriter.fresh r).2
  | .generate env r => (handleGenerate env db ResponseWriter.fresh r).2

/-- The database after a sequence of requests served one after the other. -/
def serveAll (db : DB) (calls : List Call) : DB :=
  calls.foldl step db

/-! ## Startup -/

/-- The errors the environment injects into the startup sequence. -/
structure StartupFaults where
  sqlOpen : Option String
  ping : Option String
  conn : Option String
  accessMode : Option String
  installLoad : Option String
  attach : Option String
  migrate : Option String
  /-- The error `http.ListenAndServe` returns with; `none` when it keeps
  serving and never returns. -/
  listen : Option String

/-- The effects of the startup sequence, in the order they happen. -/
inductive StartupStep where
  | sqlOpen
  | ping
  | conn
  | accessMode
  | installLoad
  | attach
  | migrate
  | listenAndServe (addr : String)
  | connClose
  | dbClose
deriving DecidableEq, Repr

/-- The function `run`, given the parsed flags: the effects performed and the
error returned (`none`: the server keeps running, `run` has not returned). -/
def run (dsn addr : String) (f : StartupFaults) : List StartupStep × Option String :=
  if dsn = "" then ([], some "dsn required")
  else if addr = "" then ([], some "bind address required")
  else
    match f.sqlOpen with
    | some err => ([.sqlOpen], some ("open db: " ++ err))
    | none =>
    match f.ping with
    | some err => ([.sqlOpen, .ping, .dbClose], some ("ping db: " ++ err))
    | none =>
    match f.conn with
    | some err => ([.sqlOpen, .ping, .conn, .dbClose], some ("get db connection: " ++ err))
    | none =>
    match f.accessMode with
    | some err =>
      ([.sqlOpen, .ping, .conn, .accessMode, .connClose, .dbClose],
        some ("get access mode: " ++ err))
    | none =>
    match f.installLoad with
    | some err =>
      ([.sqlOpen, .ping, .conn, .accessMode, .installLoad, .connClose, .dbClose],
        some ("cannot install/load sqlite extension: " ++ err))
    | none =>
    match f.attach with
    | some err =>
      ([.sqlOpen, .ping, .conn, .accessMode, .installLoad, .attach, .connClose, .dbClose],
        some ("cannot install/load sqlite extension: " ++ err))
    | none =>
    match f.migrate with
    | some err =>
      ([.sqlOpen, .ping, .conn, .accessMode, .installLoad, .attach, .migrate, .connClose,
        .dbClose], some ("cannot migrate schema: " ++ err))
    | none =>
    match f.listen with
    | some err =>
      ([.sqlOpen, .ping, .conn, .accessMode, .installLoad, .attach, .migrate,
        .listenAndServe addr, .connClose, .dbClose], some err)
    | none =>
      ([.sqlOpen, .ping, .conn, .accessMode, .installLoad, .attach, .migrate,
        .listenAndServe addr], none)

/-- The outcome of the process: what was written to standard error and the
exit status (`none` while the server keeps running). -/
structure Outcome where
  steps : List StartupStep
  stderr : String
  exit : Option Nat
deriving DecidableEq, Repr

/-- The function `main`. -/
def main (dsn addr : String) (f : StartupFaults) : Outcome :=
  match run dsn addr f with
  | (steps, some err) => { steps := steps, stderr := err ++ "\n", exit := some 1 }
  | (steps, none) => { steps := steps, stderr := "", exit := none }

/-! ## Concrete inputs -/

/-- No statement fails. -/
def noFaults : Faults :=
  { query := none, scan := fun _ => none, close := none, nextID := none,
    overflow := "Out of Range Error: Overflow in addition of INT64", exec := none }

/-- A request environment in region `ams` with a working database. -/
def sampleEnv : Env :=
  { flyRegion := "ams", faults := noFaults,
    fakeName := "Ada Lovelace", fakePhone := "5550100", fakeCompany := "Analytical Engines",
    tmplExec := fun d =>
      ("<h1>" :: d.Region :: "</h1>" :: d.Persons.map (fun p => "<li>" ++ p.Name ++ "</li>"),
        none),
    redirectBody := fun url _ => url }

/-- The same environment on a replica, where the insert is refused. -/
def readOnlyEnv : Env :=
  { sampleEnv with faults := { noFaults with exec := some "attempt to write a readonly database" } }

/-- The same environment with a failing next-id query. -/
def nextIDFailsEnv : Env :=
  { sampleEnv with faults := { noFaults with nextID := some "connection refused" } }

/-- The same environment with a failing select. -/
def queryFailsEnv : Env :=
  { sampleEnv with faults := { noFaults with query := some "connection refused" } }

def postGenerate : Request :=
  { Method := "POST", path := "/generate", query := [],
    header := [("Referer", "http://localhost:8080/")] }

/-- A POST to /generate that carries no Referer header. -/
def postNoReferer : Request :=
  { Method := "POST", path := "/generate", query := [], header := [] }

def getGenerate : Request :=
  { Method := "GET", path := "/generate", query := [], header := [] }

def getIndexPlain : Request :=
  { Method := "GET", path := "/", query := [], header := [("Accept", "text/plain")] }

def getIndexHTML : Request :=
  { Method := "GET", path := "/", query := [], header := [("Accept", "text/html")] }

def getIndexRegion : Request :=
  { Method := "GET", path := "/", query := [("region", "fra")], header := [] }

def emptyDB : DB := { persons := [], issued := [] }

def rowA : Person := ⟨1, "Ada", "111", "A Corp"⟩

def rowB : Person := ⟨1, "Bob", "222", "B Corp"⟩

def rowC : Person := ⟨2, "Cyd", "333", "C Corp"⟩

/-- A table with two rows. -/
def twoRowDB : DB := { persons := [rowA, rowC], issued := [] }

/-- A table in which two rows carry the same id. -/
def equalIdDB : DB := { persons := [rowA, rowB], issued := [] }

/-- Startup in which every step succeeds and the server keeps running. -/
def noStartupFaults : StartupFaults :=
  { sqlOpen := none, ping := none, conn := none, accessMode := none, installLoad := none,
    attach := none, migrate := none, listen := none }

/-! ## Lemmas on the response writer -/

theorem Write_body (w : ResponseWriter) (s : String) : (w.Write s).body = w.body ++ s := by
  unfold ResponseWriter.Write ResponseWriter.WriteHeader
  cases h : w.status <;> simp [h]

theorem Write_header (w : ResponseWriter) (s : String) : (w.Write s).header = w.header := by
  unfold ResponseWriter.Write ResponseWriter.WriteHeader
  cases h : w.status <;> simp [h]

theorem Write_status (w : ResponseWriter) (s : String) :
    (w.Write s).status = some (w.status.getD StatusOK) := by
  unfold ResponseWriter.Write ResponseWriter.WriteHeader
  cases h : w.status <;> simp [h]

theorem Write_superfluous (w : ResponseWriter) (s : String) :
    (w.Write s).superfluous = w.superfluous := by
  unfold ResponseWriter.Write ResponseWriter.WriteHeader
  cases h : w.status <;> simp [h]

theorem foldl_append_string (xs : List String) (a : String) :
    xs.foldl (fun r s => r ++ s) a = a ++ xs.foldl (fun r s => r ++ s) "" := by
  induction xs generalizing a with
  | nil => simp
  | cons x xs ih =>
    simp only [List.foldl_cons]
    rw [ih (a ++ x), ih ("" ++ x)]
    simp [String.append_assoc]

theorem join_cons (x : String) (xs : List String) :
    String.join (x :: xs) = x ++ String.join xs := by
  unfold String.join
  simp only [List.foldl_cons]
  rw [foldl_append_string]
  simp

theorem foldl_Write_body {α : Type} (f : α → String) (xs : List α) (w : ResponseWriter) :
    (xs.foldl (fun w1 x => w1.Write (f x)) w).body = w.body ++ String.join (xs.map f) := by
  induction xs generalizing w with
  | nil => simp [String.join]
  | cons x xs ih =>
    simp only [List.foldl_cons, List.map_cons]
    rw [ih, Write_body, join_cons, String.append_assoc]

theorem foldl_Write_header {α : Type} (f : α → String) (xs : List α) (w : ResponseWriter) :
    (xs.foldl (fun w1 x => w1.Write (f x)) w).header = w.header := by
  induction xs generalizing w with
  | nil => rfl
  | cons x xs ih =>
    simp only [List.foldl_cons]
    rw [ih, Write_header]

theorem foldl_Write_status {α : Type} (f : α → String) (xs : List α) (w : ResponseWriter)
    (code : Nat) (h : w.status = some code) :
    (xs.foldl (fun w1 x => w1.Write (f x)) w).status = some code := by
  induction xs generalizing w with
  | nil => exact h
  | cons x xs ih =>
    simp only [List.foldl_cons]
    exact ih _ (by rw [Write_status, h]; rfl)

theorem httpError_fresh (error : String) (code : Nat) :
    httpError ResponseWriter.fresh error code =
      { header := errorHeader, status := some code, sent := errorHeader,
        body := "" ++ (error ++ "\n"), superfluous := [] } := by
  have hk : Header.Set (Header.Set (Header.Del [] "Content-Length") "Content-Type"
      "text/plain; charset=utf-8") "X-Content-Type-Options" "nosniff" = errorHeader := by
    decide
  simp only [httpError, ResponseWriter.fresh, hk]
  rfl

/-! ## Lemmas on the database -/

theorem maxID_eq_none (ps : List Person) : maxID ps = none ↔ ps = [] := by
  cases ps with
  | nil => simp [maxID]
  | cons p ps =>
    simp only [maxID]
    cases maxID ps <;> simp

theorem maxID_spec (ps : List Person) (m : Int) (h : maxID ps = some m) :
    (∃ q ∈ ps, q.ID = m) ∧ ∀ q ∈ ps, q.ID ≤ m := by
  induction ps generalizing m with
  | nil => simp [maxID] at h
  | cons p ps ih =>
    simp only [maxID] at h
    cases hm : maxID ps with
    | none =>
      rw [hm] at h
      have hnil := (maxID_eq_none ps).1 hm
      subst hnil
      simp only [Option.some.injEq] at h
      subst h
      simp
    | some m1 =>
      rw [hm] at h
      simp only [Option.some.injEq] at h
      obtain ⟨⟨q, hq, hqm⟩, hle⟩ := ih m1 hm
      subst h
      refine ⟨?_, ?_⟩
      · rcases le_total p.ID m1 with hpm | hpm
        · exact ⟨q, List.mem_cons_of_mem _ hq, by rw [hqm, max_eq_right hpm]⟩
        · exact ⟨p, List.mem_cons_self _ _, by rw [max_eq_left hpm]⟩
      · intro q1 hq1
        rcases List.mem_cons.1 hq1 with rfl | hq1
        · exact le_max_left _ _
        · exact le_trans (hle q1 hq1) (le_max_right _ _)

theorem nextIDValue_nil : nextIDValue [] = 1 := rfl

theorem nextIDValue_gt (ps : List Person) : ∀ q ∈ ps, q.ID < nextIDValue ps := by
  intro q hq
  unfold nextIDValue
  cases hm : maxID ps with
  | none =>
    have := (maxID_eq_none ps).1 hm
    subst this
    simp at hq
  | some m =>
    have := (maxID_spec ps m hm).2 q hq
    simp only [Option.getD_some]
    omega

theorem scanRows_ok (scan : Nat → Option String) (h : ∀ i, scan i = none)
    (rows : List Person) (i : Nat) (persons : List Person) :
    scanRows scan i rows persons = .ok (persons ++ rows) := by
  induction rows generalizing i persons with
  | nil => simp [scanRows]
  | cons row rest ih =>
    simp only [scanRows, h i]
    rw [ih]
    simp

theorem queryPersons_ok (f : Faults) (db : DB) (hq : f.query = none)
    (hs : ∀ i, f.scan i = none) (hc : f.close = none) :
    queryPersons f db =
      (.ok (selectRecent db.persons), { db with issued := db.issued ++ [Stmt.selectRecent] }) := by
  simp [queryPersons, dbQuery, hq, hc, scanRows_ok f.scan hs]

theorem queryPersons_db (f : Faults) (db : DB) :
    (queryPersons f db).2 = { db with issued := db.issued ++ [Stmt.selectRecent] } := by
  unfold queryPersons dbQuery
  cases f.query with
  | some err => rfl
  | none =>
    simp only
    cases scanRows f.scan 0 (selectRecent db.persons) [] with
    | error err => rfl
    | ok persons => cases f.close <;> rfl

theorem selectRecent_length (ps : List Person) :
    (selectRecent ps).length = min 10 ps.length := by
  simp [selectRecent, List.length_take, List.length_insertionSort]

theorem selectRecent_sorted (ps : List Person) :
    (selectRecent ps).Pairwise (fun a b => b.ID ≤ a.ID) := by
  have h : (ps.insertionSort idDesc).Pairwise idDesc := List.sorted_insertionSort idDesc ps
  exact h.sublist (List.take_sublist 10 _)

theorem selectRecent_largest (ps : List Person) :
    List.Perm (selectRecent ps ++ (ps.insertionSort idDesc).drop 10) ps ∧
      ∀ a ∈ selectRecent ps, ∀ b ∈ (ps.insertionSort idDesc).drop 10, b.ID ≤ a.ID := by
  have h : (ps.insertionSort idDesc).Pairwise idDesc := List.sorted_insertionSort idDesc ps
  rw [← List.take_append_drop 10 (ps.insertionSort idDesc)] at h
  refine ⟨?_, (List.pairwise_append.1 h).2.2⟩
  unfold selectRecent
  rw [List.take_append_drop]
  exact List.perm_insertionSort idDesc ps

theorem selectRecent_strict (ps : List Person) (hd : (ps.map Person.ID).Nodup) :
    (selectRecent ps).Pairwise (fun a b => b.ID < a.ID) := by
  have hperm : ((ps.insertionSort idDesc).map Person.ID).Nodup :=
    ((List.perm_insertionSort idDesc ps).map Person.ID).nodup_iff.2 hd
  have hsub : ((selectRecent ps).map Person.ID).Nodup :=
    hperm.sublist ((List.take_sublist 10 _).map Person.ID)
  have hne : (selectRecent ps).Pairwise (fun a b => a.ID ≠ b.ID) := by
    unfold List.Nodup at hsub
    exact (List.pairwise_map).1 hsub
  exact ((selectRecent_sorted ps).and hne).imp
    (fun h => lt_of_le_of_ne h.1 (fun e => h.2 e.symm))

theorem Header_Get_Set (h : Header) (key value : String) :
    Header.Get (Header.Set h key value) key = value := by
  unfold Header.Get Header.Set Header.Del
  have hnone : List.find? (fun kv => kv.1 == canonicalMIMEHeaderKey key)
      (List.filter (fun kv => kv.1 != canonicalMIMEHeaderKey key) h) = none := by
    rw [List.find?_eq_none]
    intro kv hkv
    have := (List.mem_filter.1 hkv).2
    simpa using this
  rw [List.find?_append, hnone]
  simp

theorem handleIndex_replay (env : Env) (db : DB) (w : ResponseWriter) (r : Request)
    (h : r.queryGet "region" ≠ "" ∧ r.queryGet "region" ≠ env.flyRegion) :
    handleIndex env db w r =
      ({ w with header := Header.Set w.header "fly-replay" ("region=" ++ r.queryGet "region") },
        db) := by
  unfold handleIndex
  simp only [h, ne_eq, not_false_eq_true, and_self, if_true]

theorem handleIndex_pass (env : Env) (db : DB) (w : ResponseWriter) (r : Request)
    (h : ¬ (r.queryGet "region" ≠ "" ∧ r.queryGet "region" ≠ env.flyRegion)) :
    handleIndex env db w r =
      (match (queryPersons env.faults db).1 with
        | .error err => httpError w err StatusInternalServerError
        | .ok persons =>
          if Header.Get r.header "accept" = "text/plain" then
            renderText w { Region := env.flyRegion, Persons := persons }
          else renderHTML env w { Region := env.flyRegion, Persons := persons },
        { db with issued := db.issued ++ [Stmt.selectRecent] }) := by
  unfold handleIndex
  simp only [h, if_false]
  rw [← queryPersons_db env.faults db]
  rcases hq : queryPersons env.faults db with ⟨res, db1⟩
  cases res with
  | error err => rfl
  | ok persons =>
    simp only
    split <;> rfl

theorem handleIndex_persons (env : Env) (db : DB) (w : ResponseWriter) (r : Request) :
    (handleIndex env db w r).2.persons = db.persons := by
  by_cases h : r.queryGet "region" ≠ "" ∧ r.queryGet "region" ≠ env.flyRegion
  · rw [handleIndex_replay env db w r h]
  · rw [handleIndex_pass env db w r h]

theorem queryNextID_ok (f : Faults) (db : DB) (n : Int) (h : (queryNextID f db).1 = .ok n) :
    queryNextID f db =
      (.ok (nextIDValue db.persons), { db with issued := db.issued ++ [Stmt.selectNextID] }) := by
  unfold queryNextID at h ⊢
  cases hf : f.nextID with
  | some err => simp [hf] at h
  | none =>
    simp only [hf] at h ⊢
    split at h
    · simp at h
    · rename_i hlt
      simp [hlt]

theorem handleGenerate_ok (env : Env) (db : DB) (w : ResponseWriter) (r : Request)
    (hPost : r.Method = "POST") (n : Int) (hQuery : (queryNextID env.faults db).1 = .ok n)
    (hExec : env.faults.exec = none) :
    handleGenerate env db w r =
      (httpRedirect env w r r.Referer StatusFound,
        { persons := db.persons ++
            [⟨nextIDValue db.persons, env.fakeName, env.fakePhone, env.fakeCompany⟩],
          issued := db.issued ++ [Stmt.selectNextID,
            Stmt.insert (nextIDValue db.persons) env.fakeName env.fakePhone env.fakeCompany] }) := by
  unfold handleGenerate
  simp only [hPost, ne_eq, not_true_eq_false, if_false]
  rw [queryNextID_ok env.faults db n hQuery]
  simp [execInsert, hExec]

theorem handleGenerate_persons (env : Env) (db : DB) (w : ResponseWriter) (r : Request) :
    (handleGenerate env db w r).2.persons = db.persons ∨
      (handleGenerate env db w r).2.persons = db.persons ++
        [⟨nextIDValue db.persons, env.fakeName, env.fakePhone, env.fakeCompany⟩] := by
  unfold handleGenerate
  by_cases hm : r.Method = "POST"
  · simp only [hm, ne_eq, not_true_eq_false, if_false]
    rcases hq : queryNextID env.faults db with ⟨res, db1⟩
    cases res with
    | error err =>
      left
      have : db1 = (queryNextID env.faults db).2 := by rw [hq]
      subst this
      unfold queryNextID
      cases env.faults.nextID with
      | some e => rfl
      | none => simp only; split <;> rfl
    | ok n =>
      have h1 := queryNextID_ok env.faults db n (by rw [hq])
      rw [hq] at h1
      simp only [Prod.mk.injEq, Except.ok.injEq] at h1
      obtain ⟨hn, hdb⟩ := h1
      subst hn hdb
      simp only [execInsert]
      cases env.faults.exec with
      | some e => left; rfl
      | none => right; rfl
  · left
    simp [hm]

/-! ## Lemmas on the redirect target -/

theorem hexEscapeNonASCII_ascii (s : List Char) (h : ∀ c ∈ s, c.toNat < 128) :
    hexEscapeNonASCII s = s := by
  induction s with
  | nil => rfl
  | cons c cs ih =>
    have hc : c.toNat < 128 := h c (List.mem_cons_self _ _)
    have hcs := ih (fun d hd => h d (List.mem_cons_of_mem _ hd))
    unfold hexEscapeNonASCII at hcs ⊢
    rw [List.flatMap_cons, hcs]
    simp [hc]

theorem isSchemeChar_ne (c : Char) (h : isSchemeChar c = true) :
    c ≠ '#' ∧ c ≠ ':' ∧ c ≠ '*' := by
  refine ⟨?_, ?_, ?_⟩ <;> (intro hc; subst hc; revert h; decide)

theorem cutBefore_append (sep : Char) (pre rest : List Char) (h : ∀ c ∈ pre, c ≠ sep) :
    cutBefore sep (pre ++ rest) = pre ++ cutBefore sep rest := by
  induction pre with
  | nil => rfl
  | cons c cs ih =>
    have hc : (c != sep) = true := by simpa using h c (List.mem_cons_self _ _)
    have := ih (fun d hd => h d (List.mem_cons_of_mem _ hd))
    unfold cutBefore at this ⊢
    simp only [List.cons_append, List.takeWhile_cons, hc, if_true]
    rw [this]

theorem getSchemeFrom_scheme (rawURL scheme rest : List Char) (hs : ∀ c ∈ scheme, isSchemeChar c = true) :
    ∀ seen : List Char, (seen ≠ [] ∨ (scheme.head?.any Char.isAlpha) = true) →
      getSchemeFrom rawURL seen (scheme ++ ':' :: rest) = some (seen ++ scheme, rest) := by
  induction scheme with
  | nil =>
    intro seen h
    have hseen : seen ≠ [] := by
      rcases h with h | h
      · exact h
      · simp at h
    have he : seen.isEmpty = false := by
      cases seen with
      | nil => exact absurd rfl hseen
      | cons a as => rfl
    simp [getSchemeFrom, he]
  | cons c cs ih =>
    intro seen h
    have hc := hs c (List.mem_cons_self _ _)
    have hrec := ih (fun d hd => hs d (List.mem_cons_of_mem _ hd)) (seen ++ [c])
      (Or.inl (by simp))
    rw [List.cons_append, getSchemeFrom]
    by_cases ha : c.isAlpha = true
    · simp only [ha, if_true]
      rw [hrec]
      simp
    · have hseen : seen.isEmpty = false := by
        rcases h with h | h
        · cases seen with
          | nil => exact absurd rfl h
          | cons a as => rfl
        · simp at h
          exact absurd h ha
      have hd : (c.isDigit || c == '+' || c == '-' || c == '.') = true := by
        unfold isSchemeChar at hc
        simp only [Bool.not_eq_true] at ha
        rw [ha] at hc
        simpa using hc
      simp only [ha, hd, hseen, if_true, Bool.false_eq_true, if_false]
      rw [hrec]
      simp

theorem parsesAsRelative_scheme (scheme rest : List Char)
    (hs : ∀ c ∈ scheme, isSchemeChar c = true) (hf : (scheme.head?.any Char.isAlpha) = true) :
    parsesAsRelative (scheme ++ ':' :: rest) = false := by
  have hne : scheme ≠ [] := by
    intro h
    subst h
    simp at hf
  have hu : cutBefore '#' (scheme ++ ':' :: rest) = scheme ++ ':' :: cutBefore '#' rest := by
    rw [cutBefore_append '#' scheme _ (fun c hc => (isSchemeChar_ne c (hs c hc)).1)]
    rfl
  have hstar : scheme ++ ':' :: cutBefore '#' rest ≠ ['*'] := by
    intro h
    have := congrArg List.length h
    cases scheme with
    | nil => exact hne rfl
    | cons a as => simp at this
  have hg : getScheme (scheme ++ ':' :: cutBefore '#' rest) = some (scheme, cutBefore '#' rest) := by
    unfold getScheme
    rw [getSchemeFrom_scheme _ scheme _ hs [] (Or.inr hf)]
    simp
  have he : scheme.isEmpty = false := by
    cases scheme with
    | nil => exact absurd rfl hne
    | cons a as => rfl
  unfold parsesAsRelative
  simp only [hu, hg, hstar, he, if_false]
  split <;> simp

theorem redirectLocation_absolute (oldpath url : String) (scheme rest : List Char)
    (hform : url.toList = scheme ++ ':' :: rest)
    (hf : (scheme.head?.any Char.isAlpha) = true)
    (hs : ∀ c ∈ scheme, isSchemeChar c = true)
    (hascii : ∀ c ∈ url.toList, c.toNat < 128) :
    redirectLocation oldpath url = url := by
  have hrel : parsesAsRelative url.toList = false := by
    rw [hform]
    exact parsesAsRelative_scheme scheme rest hs hf
  unfold redirectLocation redirectTarget
  rw [hrel]
  simp only [Bool.false_eq_true, if_false]
  rw [hexEscapeNonASCII_ascii _ hascii]
  rfl

/-! ## The generate endpoint -/

/-- C1: for every table and every POST request to /generate whose next-id
query and insert both succeed, `handleGenerate` appends exactly one row (the
row count grows by one); the id of that row is 1 on an empty table and
otherwise one greater than the largest id present before the request. -/
theorem handleGenerate_adds_one_row (env : Env) (db : DB) (w : ResponseWriter) (r : Request)
    (hPost : r.Method = "POST")
    (hQuery : ∃ n, (queryNextID env.faults db).1 = .ok n)
    (hExec : env.faults.exec = none) :
    ∃ p : Person,
      (handleGenerate env db w r).2.persons = db.persons ++ [p] ∧
      (handleGenerate env db w r).2.persons.length = db.persons.length + 1 ∧
      (db.persons = [] → p.ID = 1) ∧
      (db.persons ≠ [] →
        ∃ q ∈ db.persons, (∀ q1 ∈ db.persons, q1.ID ≤ q.ID) ∧ p.ID = q.ID + 1) := by
  obtain ⟨n, hn⟩ := hQuery
  refine ⟨⟨nextIDValue db.persons, env.fakeName, env.fakePhone, env.fakeCompany⟩, ?_, ?_, ?_, ?_⟩
  · rw [handleGenerate_ok env db w r hPost n hn hExec]
  · rw [handleGenerate_ok env db w r hPost n hn hExec]
    simp
  · intro hnil
    rw [hnil]
    rfl
  · intro hne
    cases hm : maxID db.persons with
    | none => exact absurd ((maxID_eq_none _).1 hm) hne
    | some m =>
      obtain ⟨⟨q, hq, hqm⟩, hle⟩ := maxID_spec db.persons m hm
      refine ⟨q, hq, ?_, ?_⟩
      · intro q1 hq1
        rw [hqm]
        exact hle q1 hq1
      · simp [nextIDValue, hm, hqm]

theorem handleGenerate_adds_one_row_witness :
    ∃ p : Person,
      (handleGenerate sampleEnv twoRowDB ResponseWriter.fresh postGenerate).2.persons =
        twoRowDB.persons ++ [p] ∧
      (handleGenerate sampleEnv twoRowDB ResponseWriter.fresh postGenerate).2.persons.length =
        twoRowDB.persons.length + 1 ∧
      (twoRowDB.persons = [] → p.ID = 1) ∧
      (twoRowDB.persons ≠ [] →
        ∃ q ∈ twoRowDB.persons, (∀ q1 ∈ twoRowDB.persons, q1.ID ≤ q.ID) ∧ p.ID = q.ID + 1) :=
  handleGenerate_adds_one_row sampleEnv twoRowDB ResponseWriter.fresh postGenerate rfl
    ⟨3, rfl⟩ rfl

/-- C3: for every request to /generate whose method is not POST,
`handleGenerate` answers with status 405 and the body "Method not allowed",
and the database is exactly as before: the rows are unchanged and no
statement (next-id query or insert) has been issued. -/
theorem handleGenerate_method_not_allowed (env : Env) (db : DB) (r : Request)
    (hMethod : r.Method ≠ "POST") :
    (handleGenerate env db ResponseWriter.fresh r).1.status = some 405 ∧
      (handleGenerate env db ResponseWriter.fresh r).1.body = "Method not allowed\n" ∧
      (handleGenerate env db ResponseWriter.fresh r).1.superfluous = [] ∧
      (handleGenerate env db ResponseWriter.fresh r).2 = db := by
  have hrun : handleGenerate env db ResponseWriter.fresh r =
      (httpError ResponseWriter.fresh "Method not allowed" StatusMethodNotAllowed, db) := by
    unfold handleGenerate
    simp only [hMethod, ne_eq, not_false_eq_true, if_true]
  rw [hrun, httpError_fresh]
  have hbody : "" ++ ("Method not allowed" ++ "\n") = "Method not allowed\n" := by decide
  exact ⟨rfl, hbody, rfl, rfl⟩

theorem handleGenerate_method_not_allowed_witness :
    (handleGenerate sampleEnv twoRowDB ResponseWriter.fresh getGenerate).1.status = some 405 ∧
      (handleGenerate sampleEnv twoRowDB ResponseWriter.fresh getGenerate).1.body =
        "Method not allowed\n" ∧
      (handleGenerate sampleEnv twoRowDB ResponseWriter.fresh getGenerate).1.superfluous = [] ∧
      (handleGenerate sampleEnv twoRowDB ResponseWriter.fresh getGenerate).2 = twoRowDB :=
  handleGenerate_method_not_allowed sampleEnv twoRowDB getGenerate (by decide)

/-- C4: on a POST to /generate whose insert is refused, `handleGenerate` first
writes "ERROR: ..." to the body, which sends the status line with 200, and
then calls `http.Error` with "Method not allowed" and 405, a code that comes
too late to be sent; on a failing next-id query the body is written first in
the same way, so the 500 passed to `http.Error` is not sent either. The
response status is 200 in both cases, not 500. -/
theorem handleGenerate_failure_status :
    (handleGenerate readOnlyEnv twoRowDB ResponseWriter.fresh postGenerate).1.status
        = some 200 ∧
      (handleGenerate readOnlyEnv twoRowDB ResponseWriter.fresh postGenerate).1.superfluous
        = [405] ∧
      (handleGenerate readOnlyEnv twoRowDB ResponseWriter.fresh postGenerate).1.body
        = "ERROR: attempt to write a readonly database\n\nMethod not allowed\n" ∧
      (handleGenerate nextIDFailsEnv twoRowDB ResponseWriter.fresh postGenerate).1.status
        = some 200 ∧
      (handleGenerate nextIDFailsEnv twoRowDB ResponseWriter.fresh postGenerate).1.superfluous
        = [500] ∧
      (handleGenerate nextIDFailsEnv twoRowDB ResponseWriter.fresh postGenerate).1.body
        = "ERROR: connection refused\n\nFailed to calculate next ID\n" := by
  decide

/-- On every POST to /generate whose next-id query succeeds and whose insert
fails, the status sent is 200 and the code 405 given to `http.Error` comes
too late. -/
theorem handleGenerate_insert_failure (env : Env) (db : DB) (r : Request) (err : String)
    (hPost : r.Method = "POST") (n : Int) (hQuery : (queryNextID env.faults db).1 = .ok n)
    (hExec : env.faults.exec = some err) :
    (handleGenerate env db ResponseWriter.fresh r).1.status = some 200 ∧
      (handleGenerate env db ResponseWriter.fresh r).1.superfluous = [405] ∧
      (handleGenerate env db ResponseWriter.fresh r).1.body =
        "" ++ ("ERROR: " ++ err ++ "\n\n") ++ ("Method not allowed" ++ "\n") ∧
      (handleGenerate env db ResponseWriter.fresh r).2.persons = db.persons := by
  have hrun : handleGenerate env db ResponseWriter.fresh r =
      (httpError (ResponseWriter.fresh.Write ("ERROR: " ++ err ++ "\n\n")) "Method not allowed"
        StatusMethodNotAllowed,
        { persons := db.persons,
          issued := db.issued ++ [Stmt.selectNextID,
            Stmt.insert (nextIDValue db.persons) env.fakeName env.fakePhone env.fakeCompany] }) := by
    unfold handleGenerate
    simp only [hPost, ne_eq, not_true_eq_false, if_false]
    rw [queryNextID_ok env.faults db n hQuery]
    simp [execInsert, hExec]
  rw [hrun]
  exact ⟨rfl, rfl, rfl, rfl⟩

/-- A failing select, row scan or `rows.Close` in `handleIndex` is answered
with status 500 and the error text as the body. -/
theorem handleIndex_failure_status (env : Env) (db : DB) (r : Request) (err : String)
    (hPass : ¬ (r.queryGet "region" ≠ "" ∧ r.queryGet "region" ≠ env.flyRegion))
    (hErr : (queryPersons env.faults db).1 = .error err) :
    (handleIndex env db ResponseWriter.fresh r).1.status = some 500 ∧
      (handleIndex env db ResponseWriter.fresh r).1.body = "" ++ (err ++ "\n") := by
  have hrun : (handleIndex env db ResponseWriter.fresh r).1 =
      httpError ResponseWriter.fresh err StatusInternalServerError := by
    rw [handleIndex_pass env db _ r hPass, hErr]
  rw [hrun, httpError_fresh]
  exact ⟨rfl, rfl⟩

/-- C7, amended: for every POST request to /generate whose next-id query and
insert both succeed, `handleGenerate` answers with status 302 and writes no
body; the Location header is the value of the request's Referer header when
that value is an ASCII URL that starts with a scheme (as in http://host/),
and in general it is that value as `http.Redirect` resolves it against the
request path, which for a request without a Referer header is "/". -/
theorem handleGenerate_redirects_to_referer (env : Env) (db : DB) (r : Request)
    (hPost : r.Method = "POST")
    (hQuery : ∃ n, (queryNextID env.faults db).1 = .ok n)
    (hExec : env.faults.exec = none) :
    (handleGenerate env db ResponseWriter.fresh r).1.status = some 302 ∧
      (handleGenerate env db ResponseWriter.fresh r).1.body = "" ∧
      (handleGenerate env db ResponseWriter.fresh r).1.superfluous = [] ∧
      Header.Get (handleGenerate env db ResponseWriter.fresh r).1.sent "Location" =
        redirectLocation r.path (Header.Get r.header "Referer") ∧
      (∀ scheme rest : List Char,
        (Header.Get r.header "Referer").toList = scheme ++ ':' :: rest →
        (scheme.head?.any Char.isAlpha) = true →
        (∀ c ∈ scheme, isSchemeChar c = true) →
        (∀ c ∈ (Header.Get r.header "Referer").toList, c.toNat < 128) →
        Header.Get (handleGenerate env db ResponseWriter.fresh r).1.sent "Location" =
          Header.Get r.header "Referer") ∧
      (Header.Get r.header "Referer" = "" → r.path = "/generate" →
        Header.Get (handleGenerate env db ResponseWriter.fresh r).1.sent "Location" = "/") := by
  obtain ⟨n, hn⟩ := hQuery
  have hGet : (r.Method == "GET") = false := by rw [hPost]; decide
  have hHead : (r.Method == "HEAD") = false := by rw [hPost]; decide
  have hred : (handleGenerate env db ResponseWriter.fresh r).1 =
      { header := Header.Set [] "Location" (redirectLocation r.path (Header.Get r.header "Referer")),
        status := some 302,
        sent := Header.Set [] "Location" (redirectLocation r.path (Header.Get r.header "Referer")),
        body := "", superfluous := [] } := by
    rw [handleGenerate_ok env db _ r hPost n hn hExec]
    simp [httpRedirect, hGet, hHead, ResponseWriter.fresh, ResponseWriter.WriteHeader,
      StatusFound, Request.Referer]
  have hloc : Header.Get (handleGenerate env db ResponseWriter.fresh r).1.sent "Location" =
      redirectLocation r.path (Header.Get r.header "Referer") := by
    rw [hred]
    exact Header_Get_Set [] "Location" _
  refine ⟨by rw [hred], by rw [hred], by rw [hred], hloc, ?_, ?_⟩
  · intro scheme rest hform hf hs hascii
    rw [hloc]
    exact redirectLocation_absolute r.path _ scheme rest hform hf hs hascii
  · intro href hpath
    rw [hloc, href, hpath]
    decide

theorem handleGenerate_redirects_to_referer_witness :
    (handleGenerate sampleEnv twoRowDB ResponseWriter.fresh postGenerate).1.status
        = some 302 ∧
      (handleGenerate sampleEnv twoRowDB ResponseWriter.fresh postGenerate).1.body = "" ∧
      Header.Get postGenerate.header "Referer" = "http://localhost:8080/" ∧
      Header.Get (handleGenerate sampleEnv twoRowDB ResponseWriter.fresh postGenerate).1.sent
        "Location" = "http://localhost:8080/" :=
  ⟨(handleGenerate_redirects_to_referer sampleEnv twoRowDB postGenerate rfl ⟨3, rfl⟩ rfl).1,
    (handleGenerate_redirects_to_referer sampleEnv twoRowDB postGenerate rfl ⟨3, rfl⟩ rfl).2.1,
    by decide,
    (handleGenerate_redirects_to_referer sampleEnv twoRowDB postGenerate rfl
      ⟨3, rfl⟩ rfl).2.2.2.2.1 "http".toList "//localhost:8080/".toList (by decide) (by decide)
      (by decide) (by decide)⟩

/-- C7 as stated fails: a POST to /generate without a Referer header whose
statements succeed is answered with status 302 and the Location "/", while the
value of the Referer header is the empty string. -/
theorem handleGenerate_no_referer_location :
    postNoReferer.Method = "POST" ∧
      Header.Get postNoReferer.header "Referer" = "" ∧
      (handleGenerate sampleEnv twoRowDB ResponseWriter.fresh postNoReferer).2.persons =
        [rowA, rowC, ⟨3, "Ada Lovelace", "5550100", "Analytical Engines"⟩] ∧
      (handleGenerate sampleEnv twoRowDB ResponseWriter.fresh postNoReferer).1.status
        = some 302 ∧
      Header.Get (handleGenerate sampleEnv twoRowDB ResponseWriter.fresh postNoReferer).1.sent
        "Location" = "/" ∧
      Header.Get (handleGenerate sampleEnv twoRowDB ResponseWriter.fresh postNoReferer).1.sent
        "Location" ≠ Header.Get postNoReferer.header "Referer" := by
  decide

/-! ## The index endpoint -/

theorem WriteHeader_header (w : ResponseWriter) (code : Nat) :
    (w.WriteHeader code).header = w.header := by
  unfold ResponseWriter.WriteHeader
  cases w.status <;> rfl

theorem httpError_header (w : ResponseWriter) (error : String) (code : Nat)
    (h : w.header = []) : (httpError w error code).header = errorHeader := by
  unfold httpError
  rw [Write_header, WriteHeader_header, h]
  have hk : Header.Set (Header.Set (Header.Del [] "Content-Length") "Content-Type"
      "text/plain; charset=utf-8") "X-Content-Type-Options" "nosniff" = errorHeader := by
    decide
  exact hk

theorem renderText_body (region : String) (persons : List Person) :
    (renderText ResponseWriter.fresh { Region := region, Persons := persons }).body =
      "REGION: " ++ region ++ "\n\n" ++ String.join (persons.map personLine) := by
  unfold renderText
  rw [foldl_Write_body, Write_body]
  simp [ResponseWriter.fresh]

theorem renderText_status (region : String) (persons : List Person) :
    (renderText ResponseWriter.fresh { Region := region, Persons := persons }).status =
      some 200 := by
  unfold renderText
  exact foldl_Write_status _ _ _ 200 (by rw [Write_status]; rfl)

theorem renderText_header (w : ResponseWriter) (tmplData : TemplateData) :
    (renderText w tmplData).header = w.header := by
  unfold renderText
  rw [foldl_Write_header, Write_header]

theorem renderHTML_header (env : Env) (w : ResponseWriter) (tmplData : TemplateData)
    (h : w.header = []) :
    (renderHTML env w tmplData).header = [] ∨ (renderHTML env w tmplData).header = errorHeader := by
  unfold renderHTML
  have h1 : ((env.tmplExec tmplData).1.foldl (fun w1 chunk => w1.Write chunk) w).header = [] := by
    rw [foldl_Write_header (fun chunk : String => chunk), h]
  cases (env.tmplExec tmplData).2 with
  | none => exact Or.inl h1
  | some err => exact Or.inr (httpError_header _ _ _ h1)

theorem renderHTML_body (env : Env) (tmplData : TemplateData) :
    (renderHTML env ResponseWriter.fresh tmplData).body =
      String.join (env.tmplExec tmplData).1 ++
        (match (env.tmplExec tmplData).2 with
          | some err => err ++ "\n"
          | none => "") := by
  unfold renderHTML
  have h1 : ((env.tmplExec tmplData).1.foldl (fun w1 chunk => w1.Write chunk)
      ResponseWriter.fresh).body = String.join (env.tmplExec tmplData).1 := by
    rw [foldl_Write_body (fun chunk : String => chunk)]
    simp [ResponseWriter.fresh]
  cases (env.tmplExec tmplData).2 with
  | none => simp [h1]
  | some err =>
    simp only
    unfold httpError
    rw [Write_body]
    have h2 : ∀ (w : ResponseWriter) (code : Nat), (w.WriteHeader code).body = w.body := by
      intro w code
      unfold ResponseWriter.WriteHeader
      cases w.status <;> rfl
    rw [h2, h1]

theorem not_replay_of_pass (env : Env) (r : Request)
    (h : r.queryGet "region" = "" ∨ r.queryGet "region" = env.flyRegion) :
    ¬ (r.queryGet "region" ≠ "" ∧ r.queryGet "region" ≠ env.flyRegion) := by
  rintro ⟨h1, h2⟩
  rcases h with h | h
  · exact h1 h
  · exact h2 h

theorem queryGet_absent (r : Request) (key : String) (h : ∀ kv ∈ r.query, kv.1 ≠ key) :
    r.queryGet key = "" := by
  unfold Request.queryGet
  have : r.query.find? (fun kv => kv.1 == key) = none := by
    rw [List.find?_eq_none]
    intro kv hkv
    simpa using h kv hkv
  rw [this]

/-- C2, amended: for every table, a request to / that is not redirected by
region and whose query, row scans and close succeed makes `handleIndex`
render exactly min(10, n) records of the n rows; no row left out has a larger
id than a rendered one; the records are listed in descending id order, and in
strictly descending id order when the ids in the table are pairwise
distinct. -/
theorem handleIndex_renders_recent (env : Env) (db : DB) (w : ResponseWriter) (r : Request)
    (hPass : r.queryGet "region" = "" ∨ r.queryGet "region" = env.flyRegion)
    (hq : env.faults.query = none) (hs : ∀ i, env.faults.scan i = none)
    (hc : env.faults.close = none) :
    ∃ persons rest : List Person,
      (queryPersons env.faults db).1 = .ok persons ∧
      (handleIndex env db w r).1 =
        (if Header.Get r.header "accept" = "text/plain" then
          renderText w { Region := env.flyRegion, Persons := persons }
        else renderHTML env w { Region := env.flyRegion, Persons := persons }) ∧
      persons.length = min 10 db.persons.length ∧
      List.Perm (persons ++ rest) db.persons ∧
      (∀ a ∈ persons, ∀ b ∈ rest, b.ID ≤ a.ID) ∧
      persons.Pairwise (fun a b => b.ID ≤ a.ID) ∧
      ((db.persons.map Person.ID).Nodup → persons.Pairwise (fun a b => b.ID < a.ID)) := by
  have hok := queryPersons_ok env.faults db hq hs hc
  refine ⟨selectRecent db.persons, (db.persons.insertionSort idDesc).drop 10, ?_, ?_,
    selectRecent_length _, (selectRecent_largest _).1, (selectRecent_largest _).2,
    selectRecent_sorted _, selectRecent_strict _⟩
  · rw [hok]
  · rw [handleIndex_pass env db w r (not_replay_of_pass env r hPass), hok]

theorem handleIndex_renders_recent_witness :
    ∃ persons rest : List Person,
      (queryPersons sampleEnv.faults twoRowDB).1 = .ok persons ∧
      (handleIndex sampleEnv twoRowDB ResponseWriter.fresh getIndexPlain).1 =
        (if Header.Get getIndexPlain.header "accept" = "text/plain" then
          renderText ResponseWriter.fresh { Region := sampleEnv.flyRegion, Persons := persons }
        else renderHTML sampleEnv ResponseWriter.fresh
          { Region := sampleEnv.flyRegion, Persons := persons }) ∧
      persons.length = min 10 twoRowDB.persons.length ∧
      List.Perm (persons ++ rest) twoRowDB.persons ∧
      (∀ a ∈ persons, ∀ b ∈ rest, b.ID ≤ a.ID) ∧
      persons.Pairwise (fun a b => b.ID ≤ a.ID) ∧
      ((twoRowDB.persons.map Person.ID).Nodup → persons.Pairwise (fun a b => b.ID < a.ID)) :=
  handleIndex_renders_recent sampleEnv twoRowDB ResponseWriter.fresh getIndexPlain
    (Or.inl (by decide)) rfl (fun _ => rfl) rfl

/-- C2 as stated fails: on a table whose two rows both carry id 1, the query
of `handleIndex` succeeds and both rows are rendered, so the ids listed are
1, 1, which is not strictly descending. -/
theorem handleIndex_equal_ids_not_strict :
    (queryPersons sampleEnv.faults equalIdDB).1 = .ok [rowA, rowB] ∧
      (handleIndex sampleEnv equalIdDB ResponseWriter.fresh getIndexPlain).1.body =
        "REGION: ams\n\n- Ada @ A Corp (111)\n- Bob @ B Corp (222)\n" ∧
      ¬ List.Pairwise (fun a b : Person => b.ID < a.ID) [rowA, rowB] :=
  ⟨rfl, by decide, by decide⟩

theorem handleIndex_pass_header (env : Env) (db : DB) (r : Request)
    (h : ¬ (r.queryGet "region" ≠ "" ∧ r.queryGet "region" ≠ env.flyRegion)) :
    (handleIndex env db ResponseWriter.fresh r).1.header = [] ∨
      (handleIndex env db ResponseWriter.fresh r).1.header = errorHeader := by
  rw [handleIndex_pass env db _ r h]
  cases (queryPersons env.faults db).1 with
  | error err => exact Or.inr (httpError_header _ _ _ rfl)
  | ok persons =>
    simp only
    split
    · left
      rw [renderText_header]
      rfl
    · exact renderHTML_header env _ _ rfl

/-- C5, amended: for every request to / whose `region` query parameter is
non-empty and differs from FLY_REGION, `handleIndex` sets the response header
fly-replay to "region=" followed by that parameter, writes no body and issues
no database statement; for every request whose `region` parameter is absent,
empty or equal to FLY_REGION, no fly-replay header is set, the select is
issued, and the record list is rendered when the query succeeds. -/
theorem handleIndex_region_gate (env : Env) (db : DB) (r : Request) :
    (r.queryGet "region" ≠ "" ∧ r.queryGet "region" ≠ env.flyRegion →
      Header.Get (handleIndex env db ResponseWriter.fresh r).1.header "fly-replay" =
        "region=" ++ r.queryGet "region" ∧
      Header.Get (handleIndex env db ResponseWriter.fresh r).1.finish.sent "fly-replay" =
        "region=" ++ r.queryGet "region" ∧
      (handleIndex env db ResponseWriter.fresh r).1.status = none ∧
      (handleIndex env db ResponseWriter.fresh r).1.body = "" ∧
      (handleIndex env db ResponseWriter.fresh r).2 = db) ∧
    ((∀ kv ∈ r.query, kv.1 ≠ "region") ∨ r.queryGet "region" = "" ∨
        r.queryGet "region" = env.flyRegion →
      Header.has (handleIndex env db ResponseWriter.fresh r).1.header
        (canonicalMIMEHeaderKey "fly-replay") = false ∧
      (handleIndex env db ResponseWriter.fresh r).2.issued = db.issued ++ [Stmt.selectRecent] ∧
      ∀ persons, (queryPersons env.faults db).1 = .ok persons →
        (handleIndex env db ResponseWriter.fresh r).1 =
          (if Header.Get r.header "accept" = "text/plain" then
            renderText ResponseWriter.fresh { Region := env.flyRegion, Persons := persons }
          else renderHTML env ResponseWriter.fresh
            { Region := env.flyRegion, Persons := persons })) := by
  constructor
  · intro h
    rw [handleIndex_replay env db _ r h]
    refine ⟨Header_Get_Set _ _ _, ?_, rfl, rfl, rfl⟩
    exact Header_Get_Set _ _ _
  · intro h
    have hp : ¬ (r.queryGet "region" ≠ "" ∧ r.queryGet "region" ≠ env.flyRegion) := by
      rcases h with h | h
      · exact not_replay_of_pass env r (Or.inl (queryGet_absent r "region" h))
      · exact not_replay_of_pass env r h
    refine ⟨?_, ?_, ?_⟩
    · rcases handleIndex_pass_header env db r hp with h1 | h1 <;> rw [h1] <;> decide
    · rw [handleIndex_pass env db _ r hp]
    · intro persons hok
      rw [handleIndex_pass env db _ r hp, hok]

theorem handleIndex_region_gate_witness :
    (Header.Get (handleIndex sampleEnv twoRowDB ResponseWriter.fresh getIndexRegion).1.header
        "fly-replay" = "region=" ++ getIndexRegion.queryGet "region" ∧
      Header.Get
        (handleIndex sampleEnv twoRowDB ResponseWriter.fresh getIndexRegion).1.finish.sent
        "fly-replay" = "region=" ++ getIndexRegion.queryGet "region" ∧
      (handleIndex sampleEnv twoRowDB ResponseWriter.fresh getIndexRegion).1.status = none ∧
      (handleIndex sampleEnv twoRowDB ResponseWriter.fresh getIndexRegion).1.body = "" ∧
      (handleIndex sampleEnv twoRowDB ResponseWriter.fresh getIndexRegion).2 = twoRowDB) ∧
    (Header.has (handleIndex sampleEnv twoRowDB ResponseWriter.fresh getIndexPlain).1.header
        (canonicalMIMEHeaderKey "fly-replay") = false ∧
      (handleIndex sampleEnv twoRowDB ResponseWriter.fresh getIndexPlain).2.issued =
        twoRowDB.issued ++ [Stmt.selectRecent] ∧
      ∀ persons, (queryPersons sampleEnv.faults twoRowDB).1 = .ok persons →
        (handleIndex sampleEnv twoRowDB ResponseWriter.fresh getIndexPlain).1 =
          (if Header.Get getIndexPlain.header "accept" = "text/plain" then
            renderText ResponseWriter.fresh
              { Region := sampleEnv.flyRegion, Persons := persons }
          else renderHTML sampleEnv ResponseWriter.fresh
            { Region := sampleEnv.flyRegion, Persons := persons })) :=
  ⟨(handleIndex_region_gate sampleEnv twoRowDB getIndexRegion).1 (by decide),
    (handleIndex_region_gate sampleEnv twoRowDB getIndexPlain).2
      (Or.inl (by intro kv hkv; cases hkv))⟩

/-- C5 as stated fails: a request to / without a `region` parameter whose
select fails is answered with status 500 and the error text; the two rows of
the table are not rendered. -/
theorem handleIndex_pass_not_rendered :
    getIndexPlain.query = [] ∧
      (handleIndex queryFailsEnv twoRowDB ResponseWriter.fresh getIndexPlain).1.status
        = some 500 ∧
      (handleIndex queryFailsEnv twoRowDB ResponseWriter.fresh getIndexPlain).1.body
        = "connection refused\n" ∧
      (handleIndex queryFailsEnv twoRowDB ResponseWriter.fresh getIndexPlain).1 ≠
        renderText ResponseWriter.fresh
          { Region := queryFailsEnv.flyRegion, Persons := selectRecent twoRowDB.persons } := by
  decide

/-- C6: for every request to / that is not redirected and whose query, row
scans and close succeed, an Accept header equal to "text/plain" makes
`handleIndex` write the body "REGION: <region>\n\n" followed, for each row
the select returns (the ten rows with the largest ids, by descending id), in
that order, by the line "- <name> @ <company> (<phone>)\n"; for every other
Accept value the response is the execution of the HTML template on the region
and the same rows, whose body is what the template wrote (followed by the
error text if the template failed). -/
theorem handleIndex_accept_switch (env : Env) (db : DB) (r : Request)
    (hPass : r.queryGet "region" = "" ∨ r.queryGet "region" = env.flyRegion)
    (hq : env.faults.query = none) (hs : ∀ i, env.faults.scan i = none)
    (hc : env.faults.close = none) :
    (Header.Get r.header "accept" = "text/plain" →
      (handleIndex env db ResponseWriter.fresh r).1.body =
        "REGION: " ++ env.flyRegion ++ "\n\n" ++
          String.join ((selectRecent db.persons).map (fun p =>
            "- " ++ p.Name ++ " @ " ++ p.Company ++ " (" ++ p.Phone ++ ")\n")) ∧
      (handleIndex env db ResponseWriter.fresh r).1.status = some 200) ∧
    (Header.Get r.header "accept" ≠ "text/plain" →
      (handleIndex env db ResponseWriter.fresh r).1 =
        renderHTML env ResponseWriter.fresh
          { Region := env.flyRegion, Persons := selectRecent db.persons } ∧
      (handleIndex env db ResponseWriter.fresh r).1.body =
        String.join
            (env.tmplExec { Region := env.flyRegion, Persons := selectRecent db.persons }).1 ++
          (match (env.tmplExec
              { Region := env.flyRegion, Persons := selectRecent db.persons }).2 with
            | some err => err ++ "\n"
            | none => "")) := by
  have hok := queryPersons_ok env.faults db hq hs hc
  have hrun := handleIndex_pass env db ResponseWriter.fresh r (not_replay_of_pass env r hPass)
  rw [hok] at hrun
  refine ⟨?_, ?_⟩
  · intro hacc
    have h1 : (handleIndex env db ResponseWriter.fresh r).1 =
        renderText ResponseWriter.fresh
          { Region := env.flyRegion, Persons := selectRecent db.persons } := by
      rw [hrun]
      exact if_pos hacc
    rw [h1]
    exact ⟨renderText_body _ _, renderText_status _ _⟩
  · intro hacc
    have h1 : (handleIndex env db ResponseWriter.fresh r).1 =
        renderHTML env ResponseWriter.fresh
          { Region := env.flyRegion, Persons := selectRecent db.persons } := by
      rw [hrun]
      exact if_neg hacc
    refine ⟨h1, ?_⟩
    rw [h1]
    exact renderHTML_body env _

theorem handleIndex_accept_switch_witness :
    (handleIndex sampleEnv twoRowDB ResponseWriter.fresh getIndexPlain).1.body =
        "REGION: ams\n\n- Cyd @ C Corp (333)\n- Ada @ A Corp (111)\n" ∧
      (handleIndex sampleEnv twoRowDB ResponseWriter.fresh getIndexPlain).1.status
        = some 200 ∧
      (handleIndex sampleEnv twoRowDB ResponseWriter.fresh getIndexHTML).1.body =
        "<h1>ams</h1><li>Cyd</li><li>Ada</li>" :=
  ⟨((handleIndex_accept_switch sampleEnv twoRowDB getIndexPlain (Or.inl (by decide)) rfl
      (fun _ => rfl) rfl).1 (by decide)).1.trans (by decide),
    ((handleIndex_accept_switch sampleEnv twoRowDB getIndexPlain (Or.inl (by decide)) rfl
      (fun _ => rfl) rfl).1 (by decide)).2,
    ((handleIndex_accept_switch sampleEnv twoRowDB getIndexHTML (Or.inl (by decide)) rfl
      (fun _ => rfl) rfl).2 (by decide)).2.trans (by decide)⟩

/-! ## Startup -/

/-- C8: for every startup configuration, an empty dsn flag makes `run` return
the error "dsn required", and a non-empty dsn with an empty bind address makes
it return "bind address required"; in both cases no startup step has been
performed (the database is not opened, the HTTP server is not started) and
`main` exits with status 1. -/
theorem run_requires_flags (dsn addr : String) (f : StartupFaults) :
    (dsn = "" →
      run dsn addr f = ([], some "dsn required") ∧
      (main dsn addr f).steps = [] ∧ (main dsn addr f).exit = some 1 ∧
      (main dsn addr f).stderr = "dsn required\n") ∧
    (dsn ≠ "" → addr = "" →
      run dsn addr f = ([], some "bind address required") ∧
      (main dsn addr f).steps = [] ∧ (main dsn addr f).exit = some 1 ∧
      (main dsn addr f).stderr = "bind address required\n") := by
  constructor
  · intro hd
    have hrun : run dsn addr f = ([], some "dsn required") := by
      unfold run
      rw [if_pos hd]
    have hb : "dsn required" ++ "\n" = "dsn required\n" := by decide
    have hmain : main dsn addr f = { steps := [], stderr := "dsn required" ++ "\n", exit := some 1 } := by
      unfold main
      rw [hrun]
    rw [hmain]
    exact ⟨hrun, rfl, rfl, hb⟩
  · intro hd ha
    have hrun : run dsn addr f = ([], some "bind address required") := by
      unfold run
      rw [if_neg hd, if_pos ha]
    have hb : "bind address required" ++ "\n" = "bind address required\n" := by decide
    have hmain : main dsn addr f = { steps := [], stderr := "bind address required" ++ "\n", exit := some 1 } := by
      unfold main
      rw [hrun]
    rw [hmain]
    exact ⟨hrun, rfl, rfl, hb⟩

theorem run_requires_flags_witness :
    (run "" "" noStartupFaults = ([], some "dsn required") ∧
      (main "" "" noStartupFaults).steps = [] ∧ (main "" "" noStartupFaults).exit = some 1 ∧
      (main "" "" noStartupFaults).stderr = "dsn required\n") ∧
    (run "memory" "" noStartupFaults = ([], some "bind address required") ∧
      (main "memory" "" noStartupFaults).steps = [] ∧
      (main "memory" "" noStartupFaults).exit = some 1 ∧
      (main "memory" "" noStartupFaults).stderr = "bind address required\n") :=
  ⟨(run_requires_flags "" "" noStartupFaults).1 rfl,
    (run_requires_flags "memory" "" noStartupFaults).2 (by decide) rfl⟩

/-! ## Invariants over sequences of requests -/

theorem step_persons (db : DB) (c : Call) :
    (step db c).persons = db.persons ∨
      ∃ p : Person, (step db c).persons = db.persons ++ [p] ∧ p.ID = nextIDValue db.persons := by
  cases c with
  | index env r => exact Or.inl (handleIndex_persons env db _ r)
  | generate env r =>
    rcases handleGenerate_persons env db ResponseWriter.fresh r with h | h
    · exact Or.inl h
    · exact Or.inr ⟨_, h, rfl⟩

theorem step_nodup (db : DB) (c : Call) (hd : (db.persons.map Person.ID).Nodup) :
    ((step db c).persons.map Person.ID).Nodup := by
  rcases step_persons db c with h | ⟨p, h, hp⟩
  · rw [h]
    exact hd
  · rw [h, List.map_append, List.map_singleton]
    refine List.Nodup.append hd (List.nodup_singleton _) ?_
    intro x hx hx1
    rw [List.mem_singleton] at hx1
    obtain ⟨q, hq, hqx⟩ := List.mem_map.1 hx
    have := nextIDValue_gt db.persons q hq
    omega

theorem serveAll_nodup (calls : List Call) (db : DB) (hd : (db.persons.map Person.ID).Nodup) :
    ((serveAll db calls).persons.map Person.ID).Nodup := by
  induction calls generalizing db with
  | nil => exact hd
  | cons c cs ih => exact ih (step db c) (step_nodup db c hd)

theorem serveAll_prefix (calls : List Call) (db : DB) :
    db.persons <+: (serveAll db calls).persons := by
  induction calls generalizing db with
  | nil => exact List.prefix_refl _
  | cons c cs ih =>
    have h1 : db.persons <+: (step db c).persons := by
      rcases step_persons db c with h | ⟨p, h, _⟩
      · rw [h]
      · rw [h]
        exact List.prefix_append _ _
    exact h1.trans (ih (step db c))

theorem serveAll_added (calls : List Call) (db : DB) :
    ∃ added : List Person,
      (serveAll db calls).persons = db.persons ++ added ∧
      added.Pairwise (fun a b => a.ID < b.ID) ∧
      ∀ q ∈ db.persons, ∀ p ∈ added, q.ID < p.ID := by
  induction calls generalizing db with
  | nil => exact ⟨[], by simp [serveAll], List.Pairwise.nil, by simp⟩
  | cons c cs ih =>
    obtain ⟨added, hrun, hinc, hgt⟩ := ih (step db c)
    have hfold : serveAll db (c :: cs) = serveAll (step db c) cs := rfl
    rcases step_persons db c with h | ⟨p, h, hp⟩
    · rw [h] at hrun hgt
      exact ⟨added, by rw [hfold, hrun], hinc, hgt⟩
    · rw [h] at hrun hgt
      refine ⟨p :: added, by rw [hfold, hrun]; simp, ?_, ?_⟩
      · exact List.pairwise_cons.2
          ⟨fun a ha => hgt p (List.mem_append_right _ (List.mem_singleton_self p)) a ha, hinc⟩
      · intro q hq a ha
        rcases List.mem_cons.1 ha with rfl | ha
        · rw [hp]
          exact nextIDValue_gt _ q hq
        · exact hgt q (List.mem_append_left _ hq) a ha

/-- C9: starting from a table whose ids are pairwise distinct (the empty
table among them), after every finite sequence of requests to / and /generate
served one after the other the ids in the table are pairwise distinct; at
every point of the sequence a request either leaves the rows as they are or
appends one record whose id is strictly greater than the id of every record
that was in the table before it; so the final table is the initial one
followed by the inserted records, with strictly increasing ids that all
exceed the initial ids. -/
theorem serveAll_ids_distinct (db : DB) (calls : List Call)
    (hd : (db.persons.map Person.ID).Nodup) :
    ((serveAll db calls).persons.map Person.ID).Nodup ∧
      (∀ (pre : List Call) (c : Call) (post : List Call), calls = pre ++ c :: post →
        (step (serveAll db pre) c).persons = (serveAll db pre).persons ∨
        ∃ p : Person,
          (step (serveAll db pre) c).persons = (serveAll db pre).persons ++ [p] ∧
          ∀ q ∈ (serveAll db pre).persons, q.ID < p.ID) ∧
      ∃ added : List Person,
        (serveAll db calls).persons = db.persons ++ added ∧
        added.Pairwise (fun a b => a.ID < b.ID) ∧
        ∀ q ∈ db.persons, ∀ p ∈ added, q.ID < p.ID := by
  refine ⟨serveAll_nodup calls db hd, ?_, serveAll_added calls db⟩
  intro pre c post _
  rcases step_persons (serveAll db pre) c with h | ⟨p, h, hp⟩
  · exact Or.inl h
  · refine Or.inr ⟨p, h, ?_⟩
    intro q hq
    rw [hp]
    exact nextIDValue_gt _ q hq

theorem serveAll_ids_distinct_witness :
    ((serveAll emptyDB [Call.generate sampleEnv postGenerate,
        Call.index sampleEnv getIndexPlain,
        Call.generate sampleEnv postGenerate]).persons.map Person.ID).Nodup ∧
      (∀ (pre : List Call) (c : Call) (post : List Call),
        [Call.generate sampleEnv postGenerate, Call.index sampleEnv getIndexPlain,
          Call.generate sampleEnv postGenerate] = pre ++ c :: post →
        (step (serveAll emptyDB pre) c).persons = (serveAll emptyDB pre).persons ∨
        ∃ p : Person,
          (step (serveAll emptyDB pre) c).persons = (serveAll emptyDB pre).persons ++ [p] ∧
          ∀ q ∈ (serveAll emptyDB pre).persons, q.ID < p.ID) ∧
      ∃ added : List Person,
        (serveAll emptyDB [Call.generate sampleEnv postGenerate,
          Call.index sampleEnv getIndexPlain,
          Call.generate sampleEnv postGenerate]).persons = emptyDB.persons ++ added ∧
        added.Pairwise (fun a b => a.ID < b.ID) ∧
        ∀ q ∈ emptyDB.persons, ∀ p ∈ added, q.ID < p.ID :=
  serveAll_ids_distinct emptyDB _ (by decide)

/-- C10: for every table and every request, `handleIndex` leaves the rows of
the table as they are and `handleGenerate` leaves them as a prefix of the new
table, followed by at most one added row; over every sequence of requests the
rows present at the start remain, unchanged and in place, as a prefix of the
table. -/
theorem handlers_only_append (env : Env) (db : DB) (w : ResponseWriter) (r : Request)
    (calls : List Call) :
    (handleIndex env db w r).2.persons = db.persons ∧
      (∃ added : List Person,
        (handleGenerate env db w r).2.persons = db.persons ++ added ∧ added.length ≤ 1) ∧
      db.persons <+: (serveAll db calls).persons := by
  refine ⟨handleIndex_persons env db w r, ?_, serveAll_prefix calls db⟩
  rcases handleGenerate_persons env db w r with h | h
  · exact ⟨[], by rw [h, List.append_nil], by simp⟩
  · exact ⟨_, h, by simp⟩

end LitefsExample
